import Mathlib

/-!
Shallow embedding of `ext/rugged/rugged_branch_collection.c`, the branch
collection binding of the rugged library.

The binding delegates to an underlying reference store (the engine).  The
store is embedded as an abstract mapping from fully-qualified reference
name to a lookup outcome (`RefDB`), and, for the mutating operations, as a
concrete repository state (`Repo`).  Engine primitives that are not part of
the reviewed C file (`git_reference_lookup`, `git_branch_lookup`,
`git_branch_create`, `git_branch_move`, `git_branch_delete`,
`rugged_object_get`, the branch iterator) are modelled from the spec and
say so in their doc comments; every function of the C file itself
(`rugged_branch_lookup`, `parse_branch_type`, `each_branch`,
`rb_git_branch_collection_aref` / `_create` / `_delete` / `_move` /
`_exist_p`) is translated clause by clause from the source.
-/

/-- Nonzero error codes returned by the underlying engine.  A successful
call (`GIT_OK`) is represented by `Except.ok`. -/
inductive GitError where
  | notFound
  | alreadyExists
  | invalidName
  | invalidTarget
  | iterOver
  | ioError
  deriving DecidableEq

/-- A reference: a fully-qualified name together with the commit id it
points at. -/
structure Reference where
  name : String
  target : String
  deriving DecidableEq

/-- Modelled from the spec: the Reference Store, a durable mapping from
fully-qualified reference name to its lookup outcome.  An arbitrary
function is used so that lookups may also fail with non-NotFound errors
(for instance an i/o failure of the backing store). -/
abbrev RefDB : Type := String → Except GitError Reference

/-- Modelled from the spec: `refGet`, the raw reference lookup primitive of
the store (the engine call `git_reference_lookup`): the given
fully-qualified name is looked up verbatim. -/
def git_reference_lookup (db : RefDB) (name : String) : Except GitError Reference :=
  db name

/-- The engine's branch-namespace selector, `git_branch_t`. -/
inductive git_branch_t where
  | localBranch
  | remoteBranch
  deriving DecidableEq

/-- Modelled from the spec: the engine's namespaced branch lookup
(`git_branch_lookup`).  The local namespace is `refs/heads/<name>`, the
remote namespace is `refs/remotes/<name>`. -/
def git_branch_lookup (db : RefDB) (name : String) : git_branch_t → Except GitError Reference
  | .localBranch => git_reference_lookup db ("refs/heads/" ++ name)
  | .remoteBranch => git_reference_lookup db ("refs/remotes/" ++ name)

/-- Outcome of the helper `rugged_branch_lookup` of the C file: it either
produces a reference, returns a nonzero engine code to its caller, or
raises a host-runtime `TypeError` (`rb_raise`). -/
inductive LookupRes where
  | found (r : Reference)
  | gitErr (e : GitError)
  | raised (msg : String)
  deriving DecidableEq

/-- Lift an engine call result into a `LookupRes`. -/
def toLookupRes : Except GitError Reference → LookupRes
  | .ok r => .found r
  | .error e => .gitErr e

/-- Message of the `rb_raise` at line 44 of the C file. -/
def canonicalNameMsg : String :=
  "Expected #canonical_name to return a String"

/-- Message of the `rb_raise` at line 73 of the C file. -/
def expectStringOrBranchMsg : String :=
  "Expecting a String or Rugged::Branch instance"

/-- Message of the host runtime's `Check_Type(x, T_STRING)` failure: the
generic wrong-argument-type `TypeError` raised by the runtime itself. -/
def wrongArgTypeStringMsg : String :=
  "wrong argument type (expected String)"

/-- Message of the host runtime's `Check_Type(x, T_SYMBOL)` failure. -/
def wrongArgTypeSymbolMsg : String :=
  "wrong argument type (expected Symbol)"

/-- Message of the `rb_raise` in `parse_branch_type` (line 100). -/
def invalidFilterMsg : String :=
  "Invalid branch filter. Expected `:remote`, `:local` or `nil`"

/-- The possible host-runtime values passed as a branch argument: a name
string, a branch handle (identified by the string its `canonical_name`
method returns), a branch handle whose `canonical_name` returns a
non-string, or any other runtime value. -/
inductive BranchArg where
  | str (s : String)
  | branch (canonicalName : String)
  | branchBad
  | other
  deriving DecidableEq

/-- String prefix test on the character lists, the embedding of the C
idiom `strncmp(s, pre, strlen(pre)) == 0`. -/
def strncmpPre (pre s : String) : Bool :=
  pre.data.isPrefixOf s.data

/-- The prefix test of lines 51-53 of the C file: the name already begins
with the local or remote namespace or is exactly HEAD. -/
def hasQualifiedForm (s : String) : Bool :=
  strncmpPre ("refs/heads/") s || strncmpPre ("refs/remotes/") s || s == "HEAD"

/-- Embedding of `rugged_branch_lookup` (C lines 38-75).  A branch handle
is normalized to its canonical name and looked up verbatim; a string that
already has qualified form is looked up verbatim; otherwise the local,
remote and raw (`refs/<name>`) namespaces are tried in that order, falling
through only on NotFound (C lines 56-62); any other value raises a
`TypeError`. -/
def rugged_branch_lookup (db : RefDB) : BranchArg → LookupRes
  | .branch c => toLookupRes (git_reference_lookup db c)
  | .branchBad => .raised canonicalNameMsg
  | .other => .raised expectStringOrBranchMsg
  | .str s =>
    if hasQualifiedForm s then
      toLookupRes (git_reference_lookup db s)
    else
      match git_branch_lookup db s .localBranch with
      | .ok r => .found r
      | .error e =>
        if e = .notFound then
          match git_branch_lookup db s .remoteBranch with
          | .ok r => .found r
          | .error e2 =>
            if e2 = .notFound then
              toLookupRes (git_reference_lookup db ("refs/" ++ s))
            else .gitErr e2
        else .gitErr e

/-- An error surfacing to the host runtime: either a `TypeError` (from
`rb_raise` / `Check_Type`) or a typed engine error raised by
`rugged_exception_check`. -/
inductive RubyErr where
  | typeError (msg : String)
  | rugged (e : GitError)
  deriving DecidableEq

/-- Embedding of `rb_git_branch_collection_aref` (C lines 160-178), the
collection's index-by-name.  `Check_Type(rb_name, T_STRING)` runs before
the lookup, so every non-string argument (including a branch handle)
raises; on a string, `GIT_ENOTFOUND` becomes `nil` and every other error
is raised by `rugged_exception_check`. -/
def rb_git_branch_collection_aref (db : RefDB) : BranchArg → Except RubyErr (Option Reference)
  | .str s =>
    match rugged_branch_lookup db (.str s) with
    | .found r => .ok (some r)
    | .gitErr .notFound => .ok none
    | .gitErr e => .error (.rugged e)
    | .raised m => .error (.typeError m)
  | _ => .error (.typeError wrongArgTypeStringMsg)

/-- Embedding of `rb_git_branch_collection_exist_p` (C lines 339-358):
`Check_Type(rb_name, T_STRING)`, then lookup; `GIT_ENOTFOUND` becomes
`false`, every other error is raised, success becomes `true`. -/
def rb_git_branch_collection_exist_p (db : RefDB) : BranchArg → Except RubyErr Bool
  | .str s =>
    match rugged_branch_lookup db (.str s) with
    | .found _ => .ok true
    | .gitErr .notFound => .ok false
    | .gitErr e => .error (.rugged e)
    | .raised m => .error (.typeError m)
  | _ => .error (.typeError wrongArgTypeStringMsg)

/-- A concrete repository state: the reference store's entries and the set
of commit ids present in the object database. -/
structure Repo where
  refs : List Reference
  commits : List String
  deriving DecidableEq

/-- The lookup function of a concrete reference list: the first entry with
the requested name, NotFound otherwise. -/
def listDB (refs : List Reference) : RefDB := fun n =>
  match refs.find? (fun r => r.name == n) with
  | some r => .ok r
  | none => .error .notFound

/-- Modelled from the spec: the Reference Store's delete primitive
(`git_branch_delete`): the resolved reference's entry is removed. -/
def git_branch_delete (repo : Repo) (br : Reference) : Except GitError Repo :=
  .ok { repo with refs := repo.refs.filter (fun r => r.name != br.name) }

/-- Embedding of `rb_git_branch_collection_delete` (C lines 268-287): the
branch argument is resolved by `rugged_branch_lookup` and every error of
the resolution — NotFound included — is raised; then the reference is
deleted. -/
def rb_git_branch_collection_delete (repo : Repo) (arg : BranchArg) : Except RubyErr Repo :=
  match rugged_branch_lookup (listDB repo.refs) arg with
  | .raised m => .error (.typeError m)
  | .gitErr e => .error (.rugged e)
  | .found br =>
    match git_branch_delete repo br with
    | .error e => .error (.rugged e)
    | .ok repo2 => .ok repo2

/-- Modelled from the spec: the engine's branch rename primitive
(`git_branch_move`): the destination is always `refs/heads/<newName>`
whatever the namespace of the source; an existing reference at the
destination fails with AlreadyExists unless force; otherwise the old entry
is removed and the destination entry written with the old target. -/
def git_branch_move (repo : Repo) (old : Reference) (newName : String) (force : Bool) :
    Except GitError (Repo × Reference) :=
  let dest := "refs/heads/" ++ newName
  if repo.refs.any (fun r => r.name == dest) && !force then
    .error .alreadyExists
  else
    let nr : Reference := ⟨dest, old.target⟩
    .ok ({ repo with
            refs := nr :: repo.refs.filter (fun r => r.name != old.name && r.name != dest) },
         nr)

/-- Embedding of `rb_git_branch_collection_move` (C lines 306-330): the
old branch is resolved by `rugged_branch_lookup` with every resolution
error raised, then renamed by the engine with the given force flag. -/
def rb_git_branch_collection_move (repo : Repo) (arg : BranchArg) (newName : String)
    (force : Bool) : Except RubyErr (Repo × Reference) :=
  match rugged_branch_lookup (listDB repo.refs) arg with
  | .raised m => .error (.typeError m)
  | .gitErr e => .error (.rugged e)
  | .found old =>
    match git_branch_move repo old newName force with
    | .error e => .error (.rugged e)
    | .ok p => .ok p

/-- Modelled from the spec: `resolveCommit` / `rugged_object_get` with
`GIT_OBJ_COMMIT` — the target revision must resolve to an existing commit
of the object database, else the call raises InvalidTarget. -/
def rugged_object_get (repo : Repo) (rev : String) : Except RubyErr String :=
  if repo.commits.contains rev then .ok rev else .error (.rugged .invalidTarget)

/-- Modelled from the spec: the engine's branch creation primitive
(`git_branch_create`): writes `refs/heads/<name>` pointing at the target;
an existing branch of that name fails with AlreadyExists unless force,
which overwrites. -/
def git_branch_create (repo : Repo) (name : String) (target : String) (force : Bool) :
    Except GitError (Repo × Reference) :=
  let full := "refs/heads/" ++ name
  if repo.refs.any (fun r => r.name == full) && !force then
    .error .alreadyExists
  else
    let nr : Reference := ⟨full, target⟩
    .ok ({ repo with refs := nr :: repo.refs.filter (fun r => r.name != full) }, nr)

/-- Embedding of `rb_git_branch_collection_create` (C lines 120-147): the
target is resolved to a commit (raising on failure), then the engine
creates the branch with the given force flag, every engine error being
raised. -/
def rb_git_branch_collection_create (repo : Repo) (name : String) (target : String)
    (force : Bool) : Except RubyErr (Repo × Reference) :=
  match rugged_object_get repo target with
  | .error e => .error e
  | .ok c =>
    match git_branch_create repo name c force with
    | .error e => .error (.rugged e)
    | .ok p => .ok p

/-- The iteration filter as a pair of namespace flags, the embedding of the
`git_branch_t` flag set (`GIT_BRANCH_LOCAL` / `GIT_BRANCH_REMOTE` and their
union). -/
structure BFilter where
  fLocal : Bool
  fRemote : Bool
  deriving DecidableEq

/-- The possible host-runtime values passed as the iteration filter: a
symbol (identified by its name), or any non-symbol value such as a
string. -/
inductive RubyFilterArg where
  | sym (s : String)
  | nonSymbol
  deriving DecidableEq

/-- Embedding of `parse_branch_type` (C lines 87-102):
`Check_Type(rb_filter, T_SYMBOL)` raises the runtime's generic `TypeError`
on a non-symbol; the symbols `local` and `remote` map to the two namespace
flags; any other symbol raises the descriptive `TypeError` of line 100. -/
def parse_branch_type : RubyFilterArg → Except RubyErr BFilter
  | .sym s =>
    if s = "local" then .ok ⟨true, false⟩
    else if s = "remote" then .ok ⟨false, true⟩
    else .error (.typeError invalidFilterMsg)
  | .nonSymbol => .error (.typeError wrongArgTypeSymbolMsg)

/-- Embedding of the filter handling of `each_branch` (C lines 186-198):
the filter starts as the union `GIT_BRANCH_LOCAL | GIT_BRANCH_REMOTE` and a
non-nil argument is parsed by `parse_branch_type`. -/
def each_branch_filter : Option RubyFilterArg → Except RubyErr BFilter
  | none => .ok ⟨true, true⟩
  | some f => parse_branch_type f

/-- The namespace a reference belongs to, when it is a branch at all. -/
def branchTypeOf (r : Reference) : Option git_branch_t :=
  if strncmpPre ("refs/heads/") r.name then some .localBranch
  else if strncmpPre ("refs/remotes/") r.name then some .remoteBranch
  else none

/-- Whether a reference is selected by a filter flag set. -/
def matchesFilter (f : BFilter) (r : Reference) : Bool :=
  match branchTypeOf r with
  | some .localBranch => f.fLocal
  | some .remoteBranch => f.fRemote
  | none => false

/-- Whether a character list occurs contiguously inside another. -/
def listHasInfix (tok : List Char) : List Char → Bool
  | [] => tok.isEmpty
  | c :: rest => tok.isPrefixOf (c :: rest) || listHasInfix tok rest

/-- Whether a token occurs in a message, as an infix of its character
list. -/
def mentionsToken (m tok : String) : Bool :=
  listHasInfix tok.data m.data

/-- Whether a message names both accepted filter values. -/
def mentionsAcceptedFilters (m : String) : Bool :=
  mentionsToken m (":local") && mentionsToken m (":remote")

/-- A store-native branch iterator, already acquired: the references it
will yield in store order, and the code `git_branch_next` reports once they
are exhausted — `GIT_ITEROVER` for normal exhaustion, any other code for a
store error. -/
structure BranchIter where
  items : List Reference
  final : GitError

/-- The protected yield loop of `each_branch` (C lines 204-214): each
reference is yielded to the consumer block until the block raises; the
result is the list of references actually yielded and the exception the
block raised, when any. -/
def run_blocks {E : Type} (block : Reference → Except E Unit) :
    List Reference → List Reference × Option E
  | [] => ([], none)
  | r :: rs =>
    match block r with
    | .ok _ => ((run_blocks block rs).1.cons r, (run_blocks block rs).2)
    | .error e => ([r], some e)

/-- The externally observable events of one `each_branch` run. -/
inductive IterEvent (E : Type) where
  | yieldBranch (r : Reference)
  | freeIter
  | raiseExn (e : E)
  | raiseGit (g : GitError)
  | retNil
  deriving DecidableEq

/-- The events that end an `each_branch` run: control returns to the
caller or an exception propagates. -/
def isExitEvent {E : Type} : IterEvent E → Bool
  | .raiseExn _ => true
  | .raiseGit _ => true
  | .retNil => true
  | _ => false

/-- Embedding of the control flow of `each_branch` (C lines 202-224) as its
event trace: the protected yield loop, then `git_branch_iterator_free`
(line 216), then — in this order in the source — the re-raise of a pending
block exception (`rb_jump_tag`, line 219), the raise of a non-`ITEROVER`
loop code (line 222), or the normal return of nil (line 224). -/
def each_branch_trace {E : Type} (iter : BranchIter) (block : Reference → Except E Unit) :
    List (IterEvent E) :=
  ((run_blocks block iter.items).1.map IterEvent.yieldBranch) ++ [IterEvent.freeIter] ++
    (match (run_blocks block iter.items).2 with
     | some e => [IterEvent.raiseExn e]
     | none =>
       if iter.final = GitError.iterOver then [IterEvent.retNil]
       else [IterEvent.raiseGit iter.final])

/-- A store holding both a local and a remote branch named x. -/
def db2 : RefDB := listDB [⟨"refs/heads/x", "c1"⟩, ⟨"refs/remotes/x", "c2"⟩]

/-- A store whose local namespace fails with an i/o error for x while every
other name resolves. -/
def dbHeadsErr : RefDB := fun m =>
  if m = "refs/heads/x" then .error .ioError else .ok ⟨m, "c3"⟩

/-- A store failing every lookup with an i/o error. -/
def dbAllIoErr : RefDB := fun _ => .error .ioError

/-- A store failing every lookup with NotFound. -/
def dbAllNotFound : RefDB := fun _ => .error .notFound

/-- A store holding exactly the local branch x. -/
def dbLocalX : RefDB := listDB [⟨"refs/heads/x", "c1"⟩]

/-- The empty repository. -/
def repoEmpty : Repo := ⟨[], []⟩

/-- A repository with one local branch and two commits. -/
def repoC : Repo := ⟨[⟨"refs/heads/main", "c1"⟩], ["c1", "c2"]⟩

/-- A repository with a remote branch and a local branch. -/
def repoM : Repo := ⟨[⟨"refs/remotes/origin/x", "c2"⟩, ⟨"refs/heads/y", "c1"⟩], []⟩

/-- Claim C1: a bare branch name is resolved by trying refs/heads/<name>,
then refs/remotes/<name>, then refs/<name>, the first existing reference
winning (so a local branch shadows a remote one of the same bare name),
while a name already carrying the refs/heads/ or refs/remotes/ prefix, or
exactly HEAD, is looked up verbatim with no fallback. -/
theorem bare_name_resolution_order (db : RefDB) (n : String) :
    (hasQualifiedForm n = true →
      rugged_branch_lookup db (.str n) = toLookupRes (git_reference_lookup db n)) ∧
    (∀ r, hasQualifiedForm n = false → db ("refs/heads/" ++ n) = .ok r →
      rugged_branch_lookup db (.str n) = .found r) ∧
    (∀ r, hasQualifiedForm n = false → db ("refs/heads/" ++ n) = .error .notFound →
      db ("refs/remotes/" ++ n) = .ok r →
      rugged_branch_lookup db (.str n) = .found r) ∧
    (hasQualifiedForm n = false → db ("refs/heads/" ++ n) = .error .notFound →
      db ("refs/remotes/" ++ n) = .error .notFound →
      rugged_branch_lookup db (.str n) =
        toLookupRes (git_reference_lookup db ("refs/" ++ n))) := by
  refine ⟨fun hq => ?_, fun r hq h1 => ?_, fun r hq h1 h2 => ?_, fun hq h1 h2 => ?_⟩
  · simp [rugged_branch_lookup, hq]
  · simp [rugged_branch_lookup, git_branch_lookup, git_reference_lookup, hq, h1]
  · simp [rugged_branch_lookup, git_branch_lookup, git_reference_lookup, hq, h1, h2]
  · simp [rugged_branch_lookup, git_branch_lookup, git_reference_lookup, hq, h1, h2]

/-- Witness for C1: with both a local and a remote branch named x, the bare
name resolves to the local one; the already-qualified remote name resolves
verbatim to the remote one. -/
theorem bare_name_resolution_order_witness :
    rugged_branch_lookup db2 (.str ("x")) = .found ⟨"refs/heads/x", "c1"⟩ ∧
    rugged_branch_lookup db2 (.str ("refs/remotes/x")) = .found ⟨"refs/remotes/x", "c2"⟩ :=
  ⟨(bare_name_resolution_order db2 ("x")).2.1 ⟨"refs/heads/x", "c1"⟩ (by decide) rfl,
   ((bare_name_resolution_order db2 ("refs/remotes/x")).1 (by decide)).trans rfl⟩

/-- Claim C2: during bare-name resolution, a non-NotFound error at any step
of the local/remote/raw chain is returned immediately; only NotFound falls
through.  The store is universally quantified, so the conclusion being
forced by the failing step alone shows that no later namespace is
consulted. -/
theorem resolver_abort_on_error (db : RefDB) (n : String) (e : GitError)
    (hq : hasQualifiedForm n = false) (he : e ≠ GitError.notFound) :
    (db ("refs/heads/" ++ n) = .error e →
      rugged_branch_lookup db (.str n) = .gitErr e) ∧
    (db ("refs/heads/" ++ n) = .error .notFound → db ("refs/remotes/" ++ n) = .error e →
      rugged_branch_lookup db (.str n) = .gitErr e) ∧
    (db ("refs/heads/" ++ n) = .error .notFound → db ("refs/remotes/" ++ n) = .error .notFound →
      db ("refs/" ++ n) = .error e →
      rugged_branch_lookup db (.str n) = .gitErr e) := by
  refine ⟨fun h1 => ?_, fun h1 h2 => ?_, fun h1 h2 h3 => ?_⟩
  · simp [rugged_branch_lookup, git_branch_lookup, git_reference_lookup, hq, h1, he]
  · simp [rugged_branch_lookup, git_branch_lookup, git_reference_lookup, hq, h1, h2, he]
  · simp [rugged_branch_lookup, git_branch_lookup, git_reference_lookup, toLookupRes,
      hq, h1, h2, h3]

/-- Witness for C2: the local namespace fails with an i/o error for x, and
although the remote namespace would resolve, the error is returned at
once. -/
theorem resolver_abort_on_error_witness :
    rugged_branch_lookup dbHeadsErr (.str ("x")) = .gitErr .ioError :=
  (resolver_abort_on_error dbHeadsErr ("x") .ioError (by decide) (by decide)).1 rfl

/-- Claim C3: the collection's index-by-name returns nil exactly when
resolution reports NotFound, returns the branch exactly on successful
resolution, and raises every other error kind. -/
theorem aref_absorbs_only_notfound (db : RefDB) (s : String) :
    (rb_git_branch_collection_aref db (.str s) = .ok none ↔
      rugged_branch_lookup db (.str s) = .gitErr .notFound) ∧
    (∀ r, rb_git_branch_collection_aref db (.str s) = .ok (some r) ↔
      rugged_branch_lookup db (.str s) = .found r) ∧
    (∀ e, e ≠ GitError.notFound →
      (rb_git_branch_collection_aref db (.str s) = .error (.rugged e) ↔
        rugged_branch_lookup db (.str s) = .gitErr e)) := by
  refine ⟨?_, fun r => ?_, fun e he => ?_⟩ <;>
    cases hL : rugged_branch_lookup db (.str s) with
    | found r2 => simp_all [rb_git_branch_collection_aref]
    | raised m => simp_all [rb_git_branch_collection_aref]
    | gitErr e2 => cases e2 <;> simp_all [rb_git_branch_collection_aref, eq_comm]

/-- Witness for C3: a store failing with an i/o error makes the index
operation raise that error rather than return nil. -/
theorem aref_absorbs_only_notfound_witness :
    rb_git_branch_collection_aref dbAllIoErr (.str ("x")) = .error (.rugged .ioError) :=
  ((aref_absorbs_only_notfound dbAllIoErr ("x")).2.2 .ioError (by decide)).mpr rfl

/-- Claim C4: the existence check returns false exactly when resolution
reports NotFound, true exactly when it succeeds, and raises every other
error kind. -/
theorem exist_p_maps_notfound_to_false (db : RefDB) (s : String) :
    (rb_git_branch_collection_exist_p db (.str s) = .ok false ↔
      rugged_branch_lookup db (.str s) = .gitErr .notFound) ∧
    (rb_git_branch_collection_exist_p db (.str s) = .ok true ↔
      ∃ r, rugged_branch_lookup db (.str s) = .found r) ∧
    (∀ e, e ≠ GitError.notFound →
      (rb_git_branch_collection_exist_p db (.str s) = .error (.rugged e) ↔
        rugged_branch_lookup db (.str s) = .gitErr e)) := by
  refine ⟨?_, ?_, fun e he => ?_⟩ <;>
    cases hL : rugged_branch_lookup db (.str s) with
    | found r2 => simp_all [rb_git_branch_collection_exist_p]
    | raised m => simp_all [rb_git_branch_collection_exist_p]
    | gitErr e2 => cases e2 <;> simp_all [rb_git_branch_collection_exist_p, eq_comm]

/-- Witness for C4: a store failing with an i/o error makes the existence
check raise rather than answer false. -/
theorem exist_p_maps_notfound_to_false_witness :
    rb_git_branch_collection_exist_p dbAllIoErr (.str ("y")) = .error (.rugged .ioError) :=
  ((exist_p_maps_notfound_to_false dbAllIoErr ("y")).2.2 .ioError (by decide)).mpr rfl

/-- Claim C5: when resolution of the branch argument reports NotFound, both
delete and move raise it as a real error instead of absorbing it. -/
theorem delete_move_raise_notfound (repo : Repo) (arg : BranchArg) (newName : String)
    (force : Bool)
    (h : rugged_branch_lookup (listDB repo.refs) arg = .gitErr .notFound) :
    rb_git_branch_collection_delete repo arg = .error (.rugged .notFound) ∧
    rb_git_branch_collection_move repo arg newName force = .error (.rugged .notFound) := by
  constructor <;> simp [rb_git_branch_collection_delete, rb_git_branch_collection_move, h]

/-- Witness for C5: deleting or moving a branch absent from an empty
repository raises NotFound. -/
theorem delete_move_raise_notfound_witness :
    rb_git_branch_collection_delete repoEmpty (.str ("x")) = .error (.rugged .notFound) ∧
    rb_git_branch_collection_move repoEmpty (.str ("x")) ("y") false =
      .error (.rugged .notFound) :=
  delete_move_raise_notfound repoEmpty (.str ("x")) ("y") false rfl

/-- Claim C6: create requires the target to resolve to an existing commit,
failing with InvalidTarget otherwise; it writes refs/heads/<name>; without
force an existing branch of that name fails with AlreadyExists, and with
force the branch is repointed to the new target. -/
theorem create_requires_commit_and_writes_head (repo : Repo) (name target : String)
    (force : Bool) :
    (target ∉ repo.commits →
      rb_git_branch_collection_create repo name target force =
        .error (.rugged .invalidTarget)) ∧
    (target ∈ repo.commits →
      repo.refs.any (fun r => r.name == "refs/heads/" ++ name) = true → force = false →
      rb_git_branch_collection_create repo name target force =
        .error (.rugged .alreadyExists)) ∧
    (target ∈ repo.commits →
      (repo.refs.any (fun r => r.name == "refs/heads/" ++ name) = false ∨ force = true) →
      ∃ p, rb_git_branch_collection_create repo name target force = .ok p ∧
        p.2.name = "refs/heads/" ++ name ∧ p.2.target = target ∧
        listDB p.1.refs ("refs/heads/" ++ name) = .ok p.2) := by
  refine ⟨fun hc => ?_, fun hc ha hf => ?_, fun hc hor => ?_⟩
  · simp [rb_git_branch_collection_create, rugged_object_get, hc]
  · simp [rb_git_branch_collection_create, rugged_object_get, git_branch_create, hc, ha, hf]
  · refine ⟨({ repo with refs := (⟨"refs/heads/" ++ name, target⟩ ::
        repo.refs.filter (fun r => r.name != "refs/heads/" ++ name)) },
        ⟨"refs/heads/" ++ name, target⟩), ?_, rfl, rfl, ?_⟩
    · rcases hor with h | h <;>
        simp [rb_git_branch_collection_create, rugged_object_get, git_branch_create, hc, h]
    · simp [listDB, List.find?]

/-- Witness for C6: in a repository with branch main at c1 and commits c1
and c2, creating main at the unknown c9 fails with InvalidTarget, creating
main at c2 without force fails with AlreadyExists, and with force succeeds
and repoints refs/heads/main to c2. -/
theorem create_requires_commit_and_writes_head_witness :
    rb_git_branch_collection_create repoC ("main") ("c9") false =
      .error (.rugged .invalidTarget) ∧
    rb_git_branch_collection_create repoC ("main") ("c2") false =
      .error (.rugged .alreadyExists) ∧
    (∃ p, rb_git_branch_collection_create repoC ("main") ("c2") true = .ok p ∧
      p.2.name = "refs/heads/" ++ "main" ∧ p.2.target = "c2" ∧
      listDB p.1.refs ("refs/heads/" ++ "main") = .ok p.2) :=
  ⟨(create_requires_commit_and_writes_head repoC ("main") ("c9") false).1 (by decide),
   (create_requires_commit_and_writes_head repoC ("main") ("c2") false).2.1
     (by decide) rfl rfl,
   (create_requires_commit_and_writes_head repoC ("main") ("c2") true).2.2
     (by decide) (Or.inr rfl)⟩

/-- Claim C7: for an existing branch of either namespace, move renames the
underlying reference to refs/heads/<new_name> — always the local
namespace — and fails with AlreadyExists when a reference exists at that
destination unless force is true. -/
theorem move_targets_local_namespace (repo : Repo) (arg : BranchArg) (old : Reference)
    (newName : String) (force : Bool)
    (h : rugged_branch_lookup (listDB repo.refs) arg = .found old) :
    (repo.refs.any (fun r => r.name == "refs/heads/" ++ newName) = true → force = false →
      rb_git_branch_collection_move repo arg newName force =
        .error (.rugged .alreadyExists)) ∧
    ((repo.refs.any (fun r => r.name == "refs/heads/" ++ newName) = false ∨ force = true) →
      ∃ p, rb_git_branch_collection_move repo arg newName force = .ok p ∧
        p.2.name = "refs/heads/" ++ newName ∧ p.2.target = old.target ∧
        listDB p.1.refs ("refs/heads/" ++ newName) = .ok p.2) := by
  refine ⟨fun ha hf => ?_, fun hor => ?_⟩
  · simp [rb_git_branch_collection_move, git_branch_move, h, ha, hf]
  · refine ⟨({ repo with refs := (⟨"refs/heads/" ++ newName, old.target⟩ ::
        repo.refs.filter
          (fun r => r.name != old.name && r.name != "refs/heads/" ++ newName)) },
        ⟨"refs/heads/" ++ newName, old.target⟩), ?_, rfl, rfl, ?_⟩
    · rcases hor with h2 | h2 <;>
        simp [rb_git_branch_collection_move, git_branch_move, h, h2]
    · simp [listDB, List.find?]

/-- Witness for C7: moving the remote branch origin/x onto the taken name y
without force fails with AlreadyExists; moving it to z succeeds and the new
reference lives at refs/heads/z with the old target, although the source
was a remote branch. -/
theorem move_targets_local_namespace_witness :
    rb_git_branch_collection_move repoM (.str ("origin/x")) ("y") false =
      .error (.rugged .alreadyExists) ∧
    (∃ p, rb_git_branch_collection_move repoM (.str ("origin/x")) ("z") false = .ok p ∧
      p.2.name = "refs/heads/" ++ "z" ∧ p.2.target = "c2" ∧
      listDB p.1.refs ("refs/heads/" ++ "z") = .ok p.2) :=
  ⟨(move_targets_local_namespace repoM (.str ("origin/x")) ⟨"refs/remotes/origin/x", "c2"⟩
      ("y") false rfl).1 rfl rfl,
   (move_targets_local_namespace repoM (.str ("origin/x")) ⟨"refs/remotes/origin/x", "c2"⟩
      ("z") false rfl).2 (Or.inl rfl)⟩

/-- Counterexample for C8: a non-symbol filter value (for instance the
string local instead of the symbol) is rejected by the runtime type check,
whose generic message does not name the accepted values, contradicting the
claim that every other filter value raises a type error naming them. -/
theorem filter_nonsymbol_generic_error :
    parse_branch_type .nonSymbol = .error (.typeError wrongArgTypeSymbolMsg) ∧
    mentionsAcceptedFilters wrongArgTypeSymbolMsg = false :=
  ⟨rfl, rfl⟩

/-- Claim C8 (amended): the symbols local and remote map to the Local and
Remote branch types, a nil filter selects both namespaces, any other
symbol raises a type error whose message names the accepted values, and a
non-symbol filter is rejected with the runtime's generic type error. -/
theorem filter_two_symbols_amended :
    parse_branch_type (.sym ("local")) = .ok ⟨true, false⟩ ∧
    parse_branch_type (.sym ("remote")) = .ok ⟨false, true⟩ ∧
    each_branch_filter none = .ok ⟨true, true⟩ ∧
    (∀ r t, branchTypeOf r = some t → matchesFilter ⟨true, true⟩ r = true) ∧
    (∀ s, s ≠ "local" → s ≠ "remote" →
      parse_branch_type (.sym s) = .error (.typeError invalidFilterMsg)) ∧
    mentionsAcceptedFilters invalidFilterMsg = true ∧
    parse_branch_type .nonSymbol = .error (.typeError wrongArgTypeSymbolMsg) := by
  refine ⟨rfl, rfl, rfl, fun r t ht => ?_, fun s h1 h2 => ?_, by decide, rfl⟩
  · cases t <;> simp [matchesFilter, ht]
  · simp [parse_branch_type, h1, h2]

/-- Witness for C8: the unknown symbol upstream raises the descriptive
type error, and a remote branch is selected by the both-namespaces
filter. -/
theorem filter_two_symbols_amended_witness :
    parse_branch_type (.sym ("upstream")) = .error (.typeError invalidFilterMsg) ∧
    matchesFilter ⟨true, true⟩ ⟨"refs/remotes/origin/q", "c1"⟩ = true :=
  ⟨filter_two_symbols_amended.2.2.2.2.1 ("upstream") (by decide) (by decide),
   filter_two_symbols_amended.2.2.2.1 ⟨"refs/remotes/origin/q", "c1"⟩ .remoteBranch rfl⟩

/-- Counterexample for C9: with the local branch x present in the store,
passing a branch handle (whose canonical name the polymorphic helper would
resolve to that branch) to the index-by-name operation raises a type error
instead, because its string type check runs before the helper. -/
theorem aref_rejects_branch_handles :
    rugged_branch_lookup dbLocalX (.branch ("refs/heads/x")) = .found ⟨"refs/heads/x", "c1"⟩ ∧
    rb_git_branch_collection_aref dbLocalX (.branch ("refs/heads/x")) =
      .error (.typeError wrongArgTypeStringMsg) :=
  ⟨rfl, rfl⟩

/-- Claim C9 (amended): delete and move accept either a name string or a
branch handle, a handle being normalized to its canonical name and looked
up verbatim, and reject any other value with a type error; the
index-by-name operation accepts only a name string and rejects every other
argument, a branch handle included, with a type error. -/
theorem branch_arg_polymorphism_amended (db : RefDB) (repo : Repo) (c : String)
    (newName : String) (force : Bool) :
    rugged_branch_lookup db (.branch c) = toLookupRes (git_reference_lookup db c) ∧
    rugged_branch_lookup db .branchBad = .raised canonicalNameMsg ∧
    rb_git_branch_collection_delete repo .other =
      .error (.typeError expectStringOrBranchMsg) ∧
    rb_git_branch_collection_move repo .other newName force =
      .error (.typeError expectStringOrBranchMsg) ∧
    rb_git_branch_collection_aref db (.branch c) =
      .error (.typeError wrongArgTypeStringMsg) ∧
    rb_git_branch_collection_aref db .other = .error (.typeError wrongArgTypeStringMsg) :=
  ⟨rfl, rfl, rfl, rfl, rfl, rfl⟩

/-- Claim C10: on every exit of a block-driven iteration — normal
exhaustion, a store error, or an exception raised by the consumer's block —
the iterator is freed before the terminal event, so the trace always has
the shape yields, free, exit. -/
theorem iterator_released_on_all_exits {E : Type} (iter : BranchIter)
    (block : Reference → Except E Unit) :
    ∃ pre last, each_branch_trace iter block = pre ++ [IterEvent.freeIter, last] ∧
      IterEvent.freeIter ∉ pre ∧ isExitEvent last = true := by
  refine ⟨(run_blocks block iter.items).1.map IterEvent.yieldBranch, ?_⟩
  cases hp : (run_blocks block iter.items).2 with
  | some e =>
    exact ⟨.raiseExn e, by simp [each_branch_trace, hp], by simp, rfl⟩
  | none =>
    by_cases hf : iter.final = GitError.iterOver
    · exact ⟨.retNil, by simp [each_branch_trace, hp, hf], by simp, rfl⟩
    · exact ⟨.raiseGit iter.final, by simp [each_branch_trace, hp, hf], by simp, rfl⟩
